import Mathlib

set_option maxRecDepth 40000

/-!
Shallow embedding of the FurgFS2 virtual block store (`fs.py`, class `fileSys`).

The backing file is modelled by its disjoint regions plus the six persisted
header fields:
  * `hdr`  : the six 32-bit header fields written at offset 0 by `create_fs`;
  * `fat`  : the allocation table, one natural number (u32 value) per block slot;
  * `dir`  : the directory table: 1024 slots of 22 bytes each
             (`max_filename_length + 8`).  The byte region is kept chunked by
             slot; a raw `seek(slot_offset); write(bytes)` is `writeAtSlots`,
             which spills into the following slots byte-exactly when `bytes`
             is longer than one slot (the code never length-checks names);
  * `data` : the data region as a list of blocks, each a list of bytes;
  * `inMem`: the in-memory attributes of the `fileSys` object (geometry).

Bytes are `Nat` (values < 256 in practice); byte strings are `List Nat` and
stand for Python `bytes`/utf-8 encoded `str` values.  `bytes.rstrip(b'\x00')`
is `rstripZeros`, `bytes.ljust(n, b'\x00')` is `ljustZeros` (like the Python
original it never truncates), and an in-place overwrite inside one byte string
is `spliceAt`.  Fallible operations return the final (possibly partially
mutated) state together with an `Option Err`, mirroring in-place mutation of
the backing file that a raised exception does not undo.  The unbounded
`while` loop of `show_text_file` is given explicit fuel.
-/

namespace FurgFS

/-- Fixed data block size in bytes (`self.block_size = 4096`). -/
def blockSize : Nat := 4096

/-- Fixed width of the directory name field (`self.max_filename_length = 10 + 4`). -/
def maxFilenameLength : Nat := 10 + 4

/-- Header region size in bytes (`self.header_size = 1024`). -/
def headerSize : Nat := 1024

/-- Size of one directory slot: the name field plus 8 metadata bytes. -/
def entrySize : Nat := maxFilenameLength + 8

/-- Number of directory slots scanned by every directory loop (`range(1024)`). -/
def dirCapacity : Nat := 1024

/-- Number of block slots: `size_mb * 1024 * 1024 // block_size`. -/
def totalBlocks (sizeMB : Nat) : Nat := sizeMB * 1024 * 1024 / blockSize

/-- Strip trailing zero bytes, as Python's `rstrip(b'\x00')`. -/
def rstripZeros (l : List Nat) : List Nat := (l.reverse.dropWhile (fun b => b == 0)).reverse

/-- Pad with zero bytes on the right up to width `w`; like Python's
`ljust(w, b'\x00')` it never truncates a longer input. -/
def ljustZeros (l : List Nat) (w : Nat) : List Nat := l ++ List.replicate (w - l.length) 0

/-- Overwrite `bytes` into `region` starting at byte offset `off`
(a `seek(off)` followed by `write(bytes)` inside one byte string). -/
def spliceAt (region : List Nat) (off : Nat) (bytes : List Nat) : List Nat :=
  region.take off ++ bytes ++ region.drop (off + bytes.length)

/-- Worker for `writeAtSlots`; the fuel (initially the byte count, which always
suffices since every step consumes at least one byte) only makes the recursion
structural, and the zero-fuel arm is unreachable. -/
def writeAtSlotsGo : Nat → List (List Nat) → Nat → List Nat → List (List Nat)
  | _, dir, _, [] => dir
  | 0, dir, _, _ :: _ => dir
  | fuel + 1, dir, i, b :: bs =>
    writeAtSlotsGo fuel
      (dir.set i (spliceAt (dir.getD i []) 0 ((b :: bs).take entrySize)))
      (i + 1) ((b :: bs).drop entrySize)

/-- A raw write of `bytes` at the byte offset of directory slot `i`: the first
22 bytes overwrite the front of slot `i`, any excess spills byte-exactly into
slot `i + 1` and so on, exactly as a `seek`/`write` does on the flat region. -/
def writeAtSlots (dir : List (List Nat)) (i : Nat) (bytes : List Nat) : List (List Nat) :=
  writeAtSlotsGo bytes.length dir i bytes

/-- The 22-byte chunk read for directory slot `i` (`f.read(max_filename_length + 8)`). -/
def entryAt (dir : List (List Nat)) (i : Nat) : List Nat := (dir.getD i []).take entrySize

/-- The name stored in a directory entry: `entry[:max_filename_length].rstrip(b'\x00')`. -/
def entryName (e : List Nat) : List Nat := rstripZeros (e.take maxFilenameLength)

/-- Does this entry carry exactly the given (already utf-8 encoded) name? -/
def nameMatches (name : List Nat) (e : List Nat) : Bool := entryName e == name

/-- Is this an all-zero-name (free) directory slot? -/
def isEmptySlot (e : List Nat) : Bool := entryName e == []

/-- Linear scan of the 1024 directory slots for the first one satisfying `p`. -/
def findSlotIdx (dir : List (List Nat)) (p : List Nat → Bool) : Option Nat :=
  (List.range dirCapacity).find? (fun i => p (entryAt dir i))

/-- First directory slot whose stored name equals `name`. -/
def findName (dir : List (List Nat)) (name : List Nat) : Option Nat :=
  findSlotIdx dir (nameMatches name)

/-- First free directory slot. -/
def findEmpty (dir : List (List Nat)) : Option Nat := findSlotIdx dir isEmptySlot

/-- The utf-8 bytes of the root directory name `'/'`. -/
def rootName : List Nat := [47]

/-- First directory slot named `'/'` (the scan of `set_initial_directory`). -/
def findRootIdx (dir : List (List Nat)) : Option Nat := findName dir rootName

/-- A well-formed directory region: exactly 1024 slots of exactly 22 bytes.
This is the byte layout `create_fs` establishes and every operation preserves. -/
def dirWFb (dir : List (List Nat)) : Bool :=
  (dir.length == dirCapacity) && dir.all (fun e => e.length == entrySize)

/-- The in-memory geometry attributes of a `fileSys` object. -/
structure Geometry where
  header_size : Nat
  block_size : Nat
  size_mb : Nat
  fat_start : Nat
  root_dir_start : Nat
  data_start : Nat
deriving Repr, DecidableEq

/-- The six u32 header fields persisted at offset 0 of the backing store. -/
structure Header where
  header_size : Nat
  block_size : Nat
  total_size : Nat
  fat_start : Nat
  root_dir_start : Nat
  data_start : Nat
deriving Repr, DecidableEq

/-- The modelled state of a backing store plus its in-memory handle. -/
structure FS where
  hdr : Header
  fat : List Nat
  dir : List (List Nat)
  data : List (List Nat)
  inMem : Geometry
deriving Repr, DecidableEq

/-- Geometry computed by `fileSys.__init__` before the existence check:
`fat_start = header_size`, `root_dir_start = fat_start + total_blocks * 4`,
`data_start = root_dir_start + (max_filename_length + 8) * 1024`. -/
def freshGeometry (s : Nat) : Geometry :=
  { header_size := headerSize
    block_size := blockSize
    size_mb := s
    fat_start := headerSize
    root_dir_start := headerSize + totalBlocks s * 4
    data_start := headerSize + totalBlocks s * 4 + entrySize * dirCapacity }

/-- The six fields `create_fs` packs at offset 0 (`total_size = size_mb * 1024 * 1024`). -/
def headerOf (g : Geometry) : Header :=
  { header_size := g.header_size
    block_size := g.block_size
    total_size := g.size_mb * 1024 * 1024
    fat_start := g.fat_start
    root_dir_start := g.root_dir_start
    data_start := g.data_start }

/-- The in-memory attributes reconstructed by `__init__` when the backing store
already exists: all six read back from the header, with
`size_mb = total_size // (1024 * 1024)`.  The caller-supplied size is not used. -/
def reopenGeometry (h : Header) : Geometry :=
  { header_size := h.header_size
    block_size := h.block_size
    size_mb := h.total_size / (1024 * 1024)
    fat_start := h.fat_start
    root_dir_start := h.root_dir_start
    data_start := h.data_start }

/-- Typed stand-ins for the exceptions raised by `fs.py`. -/
inductive Err where
  | rootDirFull
  | notEnoughSpace
  | notEnoughContiguous
  | fileNotFound
  | rootNotFound
deriving Repr, DecidableEq

/-- Model of `create_directory(dirname)`: find the first free slot and write
`dirname.ljust(14, b'\x00') + b'\x01' + b'\x00' * 7`; raise if the table is full. -/
def createDirectory (fs : FS) (dirname : List Nat) : FS × Option Err :=
  match findEmpty fs.dir with
  | some i =>
    let e := ljustZeros dirname maxFilenameLength ++ [1] ++ List.replicate 7 0
    ({ fs with dir := writeAtSlots fs.dir i e }, none)
  | none => (fs, some Err.rootDirFull)

/-- The store right after `create_fs` zero-fills everything and writes the header,
before `create_directory('/')` runs. -/
def blankFS (s : Nat) : FS :=
  { hdr := headerOf (freshGeometry s)
    fat := List.replicate (totalBlocks s) 0
    dir := List.replicate dirCapacity (List.replicate entrySize 0)
    data := List.replicate (totalBlocks s) (List.replicate blockSize 0)
    inMem := freshGeometry s }

/-- A freshly formatted store of `s` MiB: `create_fs` followed by `create_directory('/')`. -/
def formatFS (s : Nat) : FS := (createDirectory (blankFS s) rootName).1

/-- The 22 bytes of the root directory entry written at format time. -/
def rootEntryBytes : List Nat :=
  ljustZeros rootName maxFilenameLength ++ [1] ++ List.replicate 7 0

/-- The directory region of any freshly formatted store (the root entry in slot 0). -/
def dirFresh : List (List Nat) :=
  writeAtSlots (List.replicate dirCapacity (List.replicate entrySize 0)) 0 rootEntryBytes

/-- Reopening an existing backing store: `__init__`'s else-branch reads the six
header fields back, then `set_initial_directory` scans the 1024 directory slots
for `'/'` and repoints `root_dir_start` at that slot's byte offset, raising if
it is absent.  The caller-supplied size argument is ignored. -/
def reopenFS (sizeArg : Nat) (fs : FS) : FS × Option Err :=
  let g := reopenGeometry fs.hdr
  let _ := sizeArg
  match findRootIdx fs.dir with
  | some i =>
    ({ fs with inMem := { g with root_dir_start := g.root_dir_start + entrySize * i } }, none)
  | none => ({ fs with inMem := g }, some Err.rootNotFound)

/-- The free-block scan of `copy_to_fs`: walk the FAT slots in index order,
collecting zero-valued slots until `len(free_blocks) * block_size >= len(data)`;
`none` when the whole table is exhausted first (the for-else raise). -/
def collectFreeGo (fat : List Nat) (need : Nat) : List Nat → List Nat → Option (List Nat)
  | [], _ => none
  | i :: rest, acc =>
    if fat.getD i 0 == 0 then
      if need ≤ (acc.length + 1) * blockSize then some (acc ++ [i])
      else collectFreeGo fat need rest (acc ++ [i])
    else collectFreeGo fat need rest acc

/-- Collect free blocks over the whole table of `nBlocks` slots. -/
def collectFree (fat : List Nat) (nBlocks need : Nat) : Option (List Nat) :=
  collectFreeGo fat need (List.range nBlocks) []

/-- The commit loop of `copy_to_fs`: for each collected block, write
`block_index + 1` into its FAT slot and the next `block_size` bytes of `data`
at the block's data offset, stopping once `data` is exhausted. -/
def writeBlocksGo : FS → List Nat → List Nat → FS
  | fs, [], _ => fs
  | fs, b :: rest, data =>
    let fs1 : FS := { fs with
      fat := fs.fat.set b (b + 1)
      data := fs.data.set b (spliceAt (fs.data.getD b []) 0 (data.take blockSize)) }
    if data.drop blockSize == [] then fs1
    else writeBlocksGo fs1 rest (data.drop blockSize)

/-- Model of `copy_to_fs(src_path)` with the host-file read abstracted to the byte string
`data` and `os.path.basename(src_path)` to `basename`: first write a directory
entry `basename.ljust(14, b'\x00') + b'\x00' * 8` into the first free slot
(raising if the table is full), then scan the FAT for enough free blocks
(raising, with the entry already written, if there are too few), then commit. -/
def copyToFs (fs : FS) (basename data : List Nat) : FS × Option Err :=
  match findEmpty fs.dir with
  | none => (fs, some Err.rootDirFull)
  | some i =>
    let e := ljustZeros basename maxFilenameLength ++ List.replicate 8 0
    let fs1 : FS := { fs with dir := writeAtSlots fs.dir i e }
    match collectFree fs1.fat (totalBlocks fs1.inMem.size_mb) data.length with
    | none => (fs1, some Err.notEnoughSpace)
    | some freeBlocks =>
      if freeBlocks.length * blockSize < data.length then
        (fs1, some Err.notEnoughContiguous)
      else (writeBlocksGo fs1 freeBlocks data, none)

/-- The allocation loop of `create_text_file`: scan FAT slots in index order;
at each free slot write `block_index + 1` into the slot and the next chunk of
`content` into the block, breaking when the content is exhausted.  The `Bool`
is `false` when the loop ran off the end of the table (the for-else raise). -/
def ctfAllocGo : FS → List Nat → List Nat → FS × Bool
  | fs, [], _ => (fs, false)
  | fs, i :: rest, content =>
    if fs.fat.getD i 0 == 0 then
      let fs1 : FS := { fs with
        fat := fs.fat.set i (i + 1)
        data := fs.data.set i (spliceAt (fs.data.getD i []) 0 (content.take blockSize)) }
      if content.drop blockSize == [] then (fs1, true)
      else ctfAllocGo fs1 rest (content.drop blockSize)
    else ctfAllocGo fs rest content

/-- Model of `create_text_file(filename, content)`: allocate-and-write first, then write
the directory entry `filename.ljust(14, b'\x00') + b'\x00' * 8` into the first
free slot.  No length check is made on `filename`. -/
def createTextFile (fs : FS) (filename content : List Nat) : FS × Option Err :=
  match ctfAllocGo fs (List.range (totalBlocks fs.inMem.size_mb)) content with
  | (fs1, false) => (fs1, some Err.notEnoughSpace)
  | (fs1, true) =>
    match findEmpty fs1.dir with
    | some i =>
      let e := ljustZeros filename maxFilenameLength ++ List.replicate 8 0
      ({ fs1 with dir := writeAtSlots fs1.dir i e }, none)
    | none => (fs1, some Err.rootDirFull)

/-- Model of `rename_file(old_name, new_name)`: overwrite the name field in place,
keeping the 8 metadata bytes; no protection check. -/
def renameFile (fs : FS) (oldName newName : List Nat) : FS × Option Err :=
  match findName fs.dir oldName with
  | some i =>
    let e := ljustZeros newName maxFilenameLength ++ (entryAt fs.dir i).drop maxFilenameLength
    ({ fs with dir := writeAtSlots fs.dir i e }, none)
  | none => (fs, some Err.fileNotFound)

/-- Model of `remove_file(filename)`: zero-erase the matching directory slot; the FAT is
not touched and no protection check is made. -/
def removeFile (fs : FS) (filename : List Nat) : FS × Option Err :=
  match findName fs.dir filename with
  | some i =>
    ({ fs with dir := writeAtSlots fs.dir i (List.replicate entrySize 0) }, none)
  | none => (fs, some Err.fileNotFound)

/-- Model of `protect_file(filename)`: set the flag byte after the name field to 1. -/
def protectFile (fs : FS) (filename : List Nat) : FS × Option Err :=
  match findName fs.dir filename with
  | some i =>
    let e := (entryAt fs.dir i).take maxFilenameLength ++ [1]
      ++ (entryAt fs.dir i).drop (maxFilenameLength + 1)
    ({ fs with dir := writeAtSlots fs.dir i e }, none)
  | none => (fs, some Err.fileNotFound)

/-- Model of `unprotect_file(filename)`: clear the flag byte after the name field. -/
def unprotectFile (fs : FS) (filename : List Nat) : FS × Option Err :=
  match findName fs.dir filename with
  | some i =>
    let e := (entryAt fs.dir i).take maxFilenameLength ++ [0]
      ++ (entryAt fs.dir i).drop (maxFilenameLength + 1)
    ({ fs with dir := writeAtSlots fs.dir i e }, none)
  | none => (fs, some Err.fileNotFound)

/-- Model of `list_files()`: every nonempty stored name, in slot order. -/
def listFiles (fs : FS) : List (List Nat) :=
  ((List.range dirCapacity).map (fun i => entryName (entryAt fs.dir i))).filter
    (fun n => n != [])

/-- Model of `free_space()`: `(total_blocks - number of nonzero FAT slots) * block_size`. -/
def freeSpace (fs : FS) : Nat :=
  let tb := totalBlocks fs.inMem.size_mb
  let used := ((List.range tb).filter (fun i => fs.fat.getD i 0 != 0)).length
  (tb - used) * blockSize

/-- Model of `move(src_name, dest_dir)`: zero-erase the first slot named `src_name`
(raising if absent), then rewrite the first slot named `dest_dir` — scanned in
the already-erased table — with the source's original name bytes, flag byte 1
and the source's remaining 7 bytes; raising, with the source already erased,
if the destination is absent. -/
def move (fs : FS) (srcName destDir : List Nat) : FS × Option Err :=
  match findName fs.dir srcName with
  | none => (fs, some Err.fileNotFound)
  | some i =>
    let srcEntry := entryAt fs.dir i
    let dir1 := writeAtSlots fs.dir i (List.replicate entrySize 0)
    match findName dir1 destDir with
    | none => ({ fs with dir := dir1 }, some Err.fileNotFound)
    | some j =>
      let e := srcEntry.take maxFilenameLength ++ [1]
        ++ srcEntry.drop (maxFilenameLength + 1)
      ({ fs with dir := writeAtSlots dir1 j e }, none)

/-- Result of `show_text_file`, with the unbounded chain walk given fuel:
`fuelOut` means the walk had not reached a zero FAT value within the given
number of loop iterations. -/
inductive ReadResult where
  | notFound
  | content (bytes : List Nat)
  | fuelOut
deriving Repr, DecidableEq

/-- One `while block_index != 0` loop of `show_text_file`: append the block at
data offset `(block_index - 1) * block_size`, then load `fat[block_index]`. -/
def walkGo (fat : List Nat) (dat : List (List Nat)) : Nat → Nat → List Nat → Option (List Nat)
  | 0, _, _ => none
  | fuel + 1, blockIndex, acc =>
    if blockIndex == 0 then some acc
    else walkGo fat dat fuel (fat.getD blockIndex 0) (acc ++ dat.getD (blockIndex - 1) [])

/-- Model of `show_text_file(filename)`: find the slot index `i` whose name matches,
read the chain start from `fat[i]` (the directory slot index reused as a FAT
index), walk, and strip trailing zero bytes from the concatenation. -/
def showTextFile (fuel : Nat) (fs : FS) (filename : List Nat) : ReadResult :=
  match findName fs.dir filename with
  | none => ReadResult.notFound
  | some i =>
    match walkGo fs.fat fs.data fuel (fs.fat.getD i 0) [] with
    | some bytes => ReadResult.content (rstripZeros bytes)
    | none => ReadResult.fuelOut

/-- The entry `move` writes over the destination slot: the source's name field,
flag byte 1, and the source's trailing 7 bytes. -/
def movedEntry (e : List Nat) : List Nat :=
  e.take maxFilenameLength ++ [1] ++ e.drop (maxFilenameLength + 1)

/-- utf-8 bytes of the name `a`. -/
def nameA : List Nat := [97]

/-- utf-8 bytes of the name `b`. -/
def nameB : List Nat := [98]

/-- utf-8 bytes of the name `d`. -/
def nameD : List Nat := [100]

/-- utf-8 bytes of the text `hello`. -/
def helloBytes : List Nat := [104, 101, 108, 108, 111]

/-- utf-8 bytes of the text `hi`. -/
def hiBytes : List Nat := [104, 105]

/-- A 15-byte name, one byte longer than the 14-byte name field. -/
def longName15 : List Nat := [97, 98, 99, 100, 101, 102, 103, 104, 105, 106, 107, 108, 109, 110, 111]

/-- A 1 MiB store whose 256 FAT slots are all in use (as after 256 one-block
writes); any further write must fail for lack of space. -/
def fsFull : FS := { formatFS 1 with fat := List.replicate 256 1 }

/-- A 1 MiB store holding the text file `a`, whose FAT was then corrupted into
the one-slot cycle `fat[1] = 1`, the slot `show_text_file('a')` starts from. -/
def cycFS : FS :=
  { (createTextFile (formatFS 1) nameA hiBytes).1 with
    fat := (List.replicate 256 0).set 1 1 }

/-- A 1 MiB store holding the text file `a` and the directory `d`. -/
def moveWitnessFS : FS :=
  (createDirectory (createTextFile (formatFS 1) nameA hiBytes).1 nameD).1

/-- A 1 MiB store holding the text file `a` with content `hi`. -/
def fsA : FS := (createTextFile (formatFS 1) nameA hiBytes).1

/-- The store `fsA` after `protect_file('a')`. -/
def fsProt : FS := (protectFile fsA nameA).1

/-- Reading with `getD` at an in-range index returns a member of the list. -/
theorem getD_mem_of_lt {α : Type} : ∀ (l : List α) (n : Nat) (d : α), n < l.length → l.getD n d ∈ l
  | a :: l, 0, _, _ => List.mem_cons_self a l
  | a :: l, n + 1, d, h =>
    List.mem_cons_of_mem a (getD_mem_of_lt l n d (Nat.lt_of_succ_lt_succ h))

/-- Reading with `getD` after `set` at the same in-range index returns the new value. -/
theorem getD_set_self {α : Type} :
    ∀ (l : List α) (i : Nat) (a d : α), i < l.length → (l.set i a).getD i d = a
  | _ :: _, 0, _, _, _ => rfl
  | _ :: l, i + 1, a, d, h => getD_set_self l i a d (Nat.lt_of_succ_lt_succ h)

/-- Reading with `getD` after `set` at a different index is unchanged. -/
theorem getD_set_ne {α : Type} :
    ∀ (l : List α) (i j : Nat) (a d : α), i ≠ j → (l.set i a).getD j d = l.getD j d
  | [], _, _, _, _, _ => rfl
  | _ :: _, 0, 0, _, _, h => absurd rfl h
  | _ :: _, 0, _ + 1, _, _, _ => rfl
  | _ :: _, _ + 1, 0, _, _, _ => rfl
  | _ :: l, i + 1, j + 1, a, d, h =>
    getD_set_ne l i j a d (fun e => h (by rw [e]))

/-- A raw write of exactly one slot's worth of bytes at a slot whose current
content is exactly one slot's worth is a plain slot replacement. -/
theorem writeAtSlots_eq_set (dir : List (List Nat)) (i : Nat) (b : List Nat)
    (hb : b.length = entrySize) (hslot : (dir.getD i []).length = entrySize) :
    writeAtSlots dir i b = dir.set i b := by
  cases b with
  | nil => exact absurd hb (by decide)
  | cons x xs =>
    have hlen : (x :: xs).length = entrySize := hb
    have htake : (x :: xs).take entrySize = x :: xs := List.take_of_length_le (le_of_eq hlen)
    have hdrop : (x :: xs).drop entrySize = [] := List.drop_eq_nil_of_le (le_of_eq hlen)
    have hd2 : (dir.getD i []).drop (0 + (x :: xs).length) = [] :=
      List.drop_eq_nil_of_le (by rw [hslot, hlen]; omega)
    have hsp : spliceAt (dir.getD i []) 0 (x :: xs) = x :: xs := by
      simp only [spliceAt, List.take_zero, List.nil_append, hd2, List.append_nil]
    show writeAtSlotsGo (xs.length + 1) dir i (x :: xs) = dir.set i (x :: xs)
    simp only [writeAtSlotsGo, htake, hdrop, hsp]

/-- A well-formed directory has exactly `dirCapacity` slots. -/
theorem dirWFb_length {dir : List (List Nat)} (h : dirWFb dir = true) :
    dir.length = dirCapacity := by
  simp only [dirWFb, Bool.and_eq_true, beq_iff_eq] at h
  exact h.1

/-- In a well-formed directory every in-range slot holds exactly 22 bytes. -/
theorem dirWFb_getD {dir : List (List Nat)} (h : dirWFb dir = true) {i : Nat}
    (hi : i < dirCapacity) : (dir.getD i []).length = entrySize := by
  have h' := h
  simp only [dirWFb, Bool.and_eq_true, beq_iff_eq, List.all_eq_true] at h'
  exact h'.2 _ (getD_mem_of_lt dir i [] (by rw [h'.1]; exact hi))

/-- A successful directory scan returns a slot index below the capacity. -/
theorem findSlotIdx_lt {dir : List (List Nat)} {p : List Nat → Bool} {i : Nat}
    (h : findSlotIdx dir p = some i) : i < dirCapacity :=
  List.mem_range.mp (List.mem_of_find?_eq_some h)

/-- A successful name lookup returns a slot index below the capacity. -/
theorem findName_lt {dir : List (List Nat)} {n : List Nat} {i : Nat}
    (h : findName dir n = some i) : i < dirCapacity :=
  findSlotIdx_lt h

/-- Reading a slot that was just replaced by a full 22-byte entry. -/
theorem entryAt_set_self {dir : List (List Nat)} {i : Nat} {b : List Nat}
    (hi : i < dir.length) (hb : b.length = entrySize) :
    entryAt (dir.set i b) i = b := by
  unfold entryAt
  rw [getD_set_self dir i b [] hi, List.take_of_length_le (le_of_eq hb)]

/-- A slot holding exactly 22 bytes reads back as exactly those bytes. -/
theorem entryAt_length {dir : List (List Nat)} {i : Nat}
    (hslot : (dir.getD i []).length = entrySize) : (entryAt dir i).length = entrySize := by
  unfold entryAt
  rw [List.length_take, hslot]
  exact Nat.min_self _

/-- The entry `move` writes over the destination keeps the 22-byte width. -/
theorem movedEntry_length {e : List Nat} (h : e.length = entrySize) :
    (movedEntry e).length = entrySize := by
  have h22 : e.length = 22 := h
  simp only [movedEntry, List.length_append, List.length_take, List.length_drop,
    List.length_cons, List.length_nil, h22]
  decide

/-- On the FAT with the one-slot cycle `fat[1] = 1`, the chain walk of
`show_text_file` started at block index 1 never reaches a zero value, for any
number of loop iterations and any accumulator. -/
theorem walkGo_cycle_none (dat : List (List Nat)) :
    ∀ (fuel : Nat) (acc : List Nat),
      walkGo ((List.replicate 256 0).set 1 1) dat fuel 1 acc = none := by
  intro fuel
  induction fuel with
  | zero => intro acc; rfl
  | succ n ih =>
    intro acc
    have h1 : ((List.replicate 256 0).set 1 1).getD 1 0 = 1 := by decide
    have h0 : ((1 : Nat) == 0) = false := rfl
    simp only [walkGo, h0, Bool.false_eq_true, if_false, h1]
    exact ih _

/-- Claim C1: the spec says a read after a write on a fresh store returns the
written bytes.  The code violates this: after writing `hello` under the name
`a` on a freshly formatted 1 MiB store, `show_text_file('a')` reconstructs the
empty byte string, because the write never records the chain head in the
directory entry and the read walks from `fat[directory_slot_index]`
(`fat[1] = 0` here, while the data sits in block 0 with `fat[0] = 1`). -/
theorem read_after_write_returns_empty :
    (copyToFs (formatFS 1) nameA helloBytes).2 = none ∧
    showTextFile 300 (copyToFs (formatFS 1) nameA helloBytes).1 nameA =
      ReadResult.content [] ∧
    showTextFile 300 (copyToFs (formatFS 1) nameA helloBytes).1 nameA ≠
      ReadResult.content helloBytes := by
  refine ⟨by decide, by decide, by decide⟩

/-- Claim C2: the spec says `protect` makes `rename` and `remove` fail with
`ProtectedError`.  The code violates the first half: with the flag byte of
entry `a` set to 1 by `protect_file`, `remove_file('a')` and
`rename_file('a', 'b')` both succeed and mutate the entry, because neither
ever reads the protection flag (no `ProtectedError` exists in the code).  The
second half holds vacuously: after `unprotect_file`, `remove_file` succeeds. -/
theorem protect_not_enforced :
    (protectFile fsA nameA).2 = none ∧
    (entryAt fsProt.dir 1).getD maxFilenameLength 0 = 1 ∧
    (removeFile fsProt nameA).2 = none ∧
    entryName (entryAt (removeFile fsProt nameA).1.dir 1) = [] ∧
    (renameFile fsProt nameA nameB).2 = none ∧
    entryName (entryAt (renameFile fsProt nameA nameB).1.dir 1) = nameB ∧
    (unprotectFile fsProt nameA).2 = none ∧
    (removeFile (unprotectFile fsProt nameA).1 nameA).2 = none := by
  refine ⟨by decide, by decide, by decide, by decide, by decide, by decide, by decide, by decide⟩

/-- Claim C3: the spec says `remove` frees the removed file's FAT slots, so
`free_space` returns to its pre-write value.  The code violates this:
`remove_file` only zero-erases the directory slot and never touches the FAT,
so after writing `hi` under `a` (256 blocks free becomes 255) and removing
`a`, `free_space()` stays at 1044480 instead of returning to 1048576. -/
theorem remove_leaves_blocks_allocated :
    freeSpace (formatFS 1) = 1048576 ∧
    freeSpace fsA = 1044480 ∧
    (removeFile fsA nameA).2 = none ∧
    (removeFile fsA nameA).1.fat = fsA.fat ∧
    freeSpace (removeFile fsA nameA).1 = 1044480 ∧
    freeSpace (removeFile fsA nameA).1 ≠ freeSpace (formatFS 1) := by
  refine ⟨by decide, by decide, by decide, by decide, by decide, by decide⟩

/-- Claim C4: the spec says a `write_file` that fails with `OutOfSpaceError`
retains no directory entry for the requested name.  The code violates this:
`copy_to_fs` writes the directory entry before scanning the FAT, and on a
store whose 256 FAT slots are all in use the write of one byte under `b`
raises out-of-space with the entry `b` still sitting in slot 1.  The other
half of the claim holds: `free_space()` is unchanged. -/
theorem entry_retained_on_out_of_space :
    (copyToFs fsFull nameB [120]).2 = some Err.notEnoughSpace ∧
    findName (copyToFs fsFull nameB [120]).1.dir nameB = some 1 ∧
    entryName (entryAt (copyToFs fsFull nameB [120]).1.dir 1) = nameB ∧
    freeSpace (copyToFs fsFull nameB [120]).1 = freeSpace fsFull := by
  refine ⟨by decide, by decide, by decide, by decide⟩

/-- Claim C5: the spec says the last allocated FAT slot of a chain is written
with the end marker `0xFFFFFFFF`.  The code violates this: allocating a
one-block chain for the text file `a` on a fresh store writes
`block_index + 1 = 1` into slot 0 — the last (and only) slot of the chain —
and the value `0xFFFFFFFF` is never written anywhere by the code. -/
theorem last_slot_not_end_marker :
    (createTextFile (formatFS 1) nameA hiBytes).2 = none ∧
    fsA.fat.getD 0 0 = 1 ∧
    fsA.fat.getD 0 0 ≠ 4294967295 := by
  refine ⟨by decide, by decide, by decide⟩

/-- Claim C6: the spec says a chain walk terminates within `total_blocks`
steps, aborting with `CorruptChainError` on a corrupted cyclic chain.  The
code violates this: the `while block_index != 0` loop of `show_text_file` has
no hop bound and no `CorruptChainError`; on the store `cycFS`, whose FAT holds
the cycle `fat[1] = 1` at the slot the read of `a` starts from, the walk is
still unfinished after any number of iterations, i.e. the loop never ends. -/
theorem walk_never_terminates_on_cycle :
    ∀ fuel : Nat, showTextFile fuel cycFS nameA = ReadResult.fuelOut := by
  intro fuel
  have hfind : findName cycFS.dir nameA = some 1 := by decide
  have hstart : cycFS.fat.getD 1 0 = 1 := by decide
  have hfat : cycFS.fat = (List.replicate 256 0).set 1 1 := rfl
  have hwalk : walkGo cycFS.fat cycFS.data fuel (cycFS.fat.getD 1 0) [] = none := by
    rw [hstart, hfat]
    exact walkGo_cycle_none cycFS.data fuel []
  simp only [showTextFile, hfind, hwalk]

/-- Claim C8: the spec says a create with a name longer than the 14-byte name
field fails with `NameTooLongError` and writes nothing.  The code violates
this: `create_text_file` with a 15-byte name raises no error (no length check
exists; `ljust` never truncates) and writes a 23-byte entry whose first 14
bytes land in the name field of slot 1, so the file appears under the
truncated 14-byte name. -/
theorem long_name_accepted :
    longName15.length = 15 ∧
    maxFilenameLength = 14 ∧
    (createTextFile (formatFS 1) longName15 [120]).2 = none ∧
    entryName (entryAt (createTextFile (formatFS 1) longName15 [120]).1.dir 1) =
      longName15.take 14 := by
  refine ⟨by decide, by decide, by decide, by decide⟩

/-- Claim C7: reopening an existing store reconstructs the in-memory geometry
from the six persisted header fields only, never from the caller-supplied size
argument, so for every format size `s` and every caller argument the geometry
after reopen equals the geometry written at format time; moreover `reopenFS`
does not depend on its size argument at all. -/
theorem reopen_uses_persisted_geometry :
    ∀ s sizeArg : Nat,
      (reopenFS sizeArg (formatFS s)).2 = none ∧
      (reopenFS sizeArg (formatFS s)).1.inMem = (formatFS s).inMem ∧
      ∀ (a b : Nat) (g : FS), reopenFS a g = reopenFS b g := by
  intro s sz
  have hdir : (formatFS s).dir = dirFresh := rfl
  have hroot : findRootIdx (formatFS s).dir = some 0 := by
    rw [hdir]; decide
  have hhdr : (formatFS s).hdr = headerOf (freshGeometry s) := rfl
  have hmem : (formatFS s).inMem = freshGeometry s := rfl
  have hdiv : s * 1024 * 1024 / (1024 * 1024) = s := by
    rw [Nat.mul_assoc]
    exact Nat.mul_div_cancel s (by norm_num)
  refine ⟨?_, ?_, ?_⟩
  · simp only [reopenFS, hroot]
  · simp only [reopenFS, hroot, hhdr, hmem, reopenGeometry, headerOf, freshGeometry]
    simp [hdiv]
  · intro a b g
    rfl

/-- Claim C10: formatting a fresh store of any size writes the root entry
`'/'` with directory-flag byte 1 into the first directory slot, so `list()`
on a fresh store includes `'/'`; and reopening any store raises the
root-not-found error exactly when no slot named `'/'` exists among the 1024
directory slots. -/
theorem format_writes_root_and_reopen_requires_it :
    (∀ s : Nat,
      entryAt (formatFS s).dir 0 = rootEntryBytes ∧
      entryName rootEntryBytes = rootName ∧
      rootEntryBytes.getD maxFilenameLength 0 = 1 ∧
      rootName ∈ listFiles (formatFS s)) ∧
    (∀ (g : FS) (sizeArg : Nat),
      ((reopenFS sizeArg g).2 = some Err.rootNotFound ↔ findRootIdx g.dir = none)) := by
  constructor
  · intro s
    have hdir : (formatFS s).dir = dirFresh := rfl
    refine ⟨?_, by decide, by decide, ?_⟩
    · rw [hdir]; decide
    · have hname : entryName (entryAt dirFresh 0) = rootName := by decide
      unfold listFiles
      refine List.mem_filter.mpr ⟨List.mem_map.mpr ⟨0, ?_, ?_⟩, by decide⟩
      · exact List.mem_range.mpr (by decide)
      · rw [hdir]; exact hname
  · intro g sz
    unfold reopenFS
    cases h : findRootIdx g.dir with
    | some i => simp [h]
    | none => simp [h]

/-- Claim C9: for every well-formed store whose directory holds the source
name (first match at slot `i`), `move` first zero-erases the source slot, then
looks the destination up in the already-erased table; when the destination is
found at slot `j` it succeeds and the final directory is the erased table with
slot `j` rewritten to the source's original name bytes, flag byte 1 and the
source's trailing bytes; when the destination is not found it fails with the
not-found error and the source slot stays erased (no rollback).  In both cases
the FAT and the data region are untouched (only the directory record moves). -/
theorem move_erases_source_then_rewrites_destination
    (fs : FS) (src dest : List Nat) (i : Nat)
    (hWF : dirWFb fs.dir = true)
    (hsrc : findName fs.dir src = some i) :
    ((move fs src dest).1.fat = fs.fat ∧ (move fs src dest).1.data = fs.data) ∧
    (findName (fs.dir.set i (List.replicate entrySize 0)) dest = none →
      (move fs src dest).2 = some Err.fileNotFound ∧
      (move fs src dest).1.dir = fs.dir.set i (List.replicate entrySize 0) ∧
      entryAt (move fs src dest).1.dir i = List.replicate entrySize 0) ∧
    (∀ j, findName (fs.dir.set i (List.replicate entrySize 0)) dest = some j →
      (move fs src dest).2 = none ∧
      (move fs src dest).1.dir =
        (fs.dir.set i (List.replicate entrySize 0)).set j (movedEntry (entryAt fs.dir i)) ∧
      entryAt (move fs src dest).1.dir j = movedEntry (entryAt fs.dir i)) := by
  have hi : i < dirCapacity := findName_lt hsrc
  have hlen : fs.dir.length = dirCapacity := dirWFb_length hWF
  have hilen : i < fs.dir.length := by rw [hlen]; exact hi
  have hslot : (fs.dir.getD i []).length = entrySize := dirWFb_getD hWF hi
  have hrep : (List.replicate entrySize (0 : Nat)).length = entrySize :=
    List.length_replicate _ _
  have herase : writeAtSlots fs.dir i (List.replicate entrySize 0)
      = fs.dir.set i (List.replicate entrySize 0) :=
    writeAtSlots_eq_set _ _ _ hrep hslot
  have hsrcLen : (entryAt fs.dir i).length = entrySize := entryAt_length hslot
  have hmeLen : (movedEntry (entryAt fs.dir i)).length = entrySize :=
    movedEntry_length hsrcLen
  cases hd : findName (fs.dir.set i (List.replicate entrySize 0)) dest with
  | none =>
    have hmove : move fs src dest =
        ({ fs with dir := fs.dir.set i (List.replicate entrySize 0) },
         some Err.fileNotFound) := by
      simp only [move, hsrc, herase, hd]
    refine ⟨⟨by rw [hmove], by rw [hmove]⟩, ?_, ?_⟩
    · intro _
      refine ⟨by rw [hmove], by rw [hmove], ?_⟩
      rw [hmove]
      exact entryAt_set_self hilen hrep
    · intro j hj
      exact absurd hj (by simp)
  | some j =>
    have hj : j < dirCapacity := findName_lt hd
    have hjlen : j < ((fs.dir.set i (List.replicate entrySize 0)).length) := by
      rw [List.length_set, hlen]; exact hj
    have hslot1 : ((fs.dir.set i (List.replicate entrySize 0)).getD j []).length = entrySize := by
      by_cases hji : j = i
      · subst hji
        rw [getD_set_self fs.dir j (List.replicate entrySize 0) [] (by rw [hlen]; exact hj)]
        exact hrep
      · rw [getD_set_ne fs.dir i j (List.replicate entrySize 0) [] (fun e => hji e.symm)]
        exact dirWFb_getD hWF hj
    have hwrite : writeAtSlots (fs.dir.set i (List.replicate entrySize 0)) j
        (movedEntry (entryAt fs.dir i))
        = (fs.dir.set i (List.replicate entrySize 0)).set j (movedEntry (entryAt fs.dir i)) :=
      writeAtSlots_eq_set _ _ _ hmeLen hslot1
    have hme : (entryAt fs.dir i).take maxFilenameLength ++ [1] ++ (entryAt fs.dir i).drop (maxFilenameLength + 1) = movedEntry (entryAt fs.dir i) := rfl
    have hmove : move fs src dest =
        ({ fs with dir := (fs.dir.set i (List.replicate entrySize 0)).set j (movedEntry (entryAt fs.dir i)) }, none) := by
      simp only [move, hsrc, herase, hd]
      rw [hme, hwrite]
    refine ⟨⟨by rw [hmove], by rw [hmove]⟩, ?_, ?_⟩
    · intro h
      exact absurd h (by simp)
    · intro j' hj'
      injection hj' with hj2
      subst hj2
      refine ⟨by rw [hmove], by rw [hmove], ?_⟩
      rw [hmove]
      exact entryAt_set_self hjlen hmeLen

/-- Concrete instance of the `move` theorem: on the store holding the file `a`
(slot 1) and the directory `d` (slot 2), both hypotheses hold by computation
and the theorem applies. -/
theorem move_erases_source_then_rewrites_destination_witness :
    dirWFb moveWitnessFS.dir = true ∧
    findName moveWitnessFS.dir nameA = some 1 ∧
    (((move moveWitnessFS nameA nameD).1.fat = moveWitnessFS.fat ∧
      (move moveWitnessFS nameA nameD).1.data = moveWitnessFS.data) ∧
     (findName (moveWitnessFS.dir.set 1 (List.replicate entrySize 0)) nameD = none →
       (move moveWitnessFS nameA nameD).2 = some Err.fileNotFound ∧
       (move moveWitnessFS nameA nameD).1.dir =
         moveWitnessFS.dir.set 1 (List.replicate entrySize 0) ∧
       entryAt (move moveWitnessFS nameA nameD).1.dir 1 = List.replicate entrySize 0) ∧
     (∀ j, findName (moveWitnessFS.dir.set 1 (List.replicate entrySize 0)) nameD = some j →
       (move moveWitnessFS nameA nameD).2 = none ∧
       (move moveWitnessFS nameA nameD).1.dir =
         (moveWitnessFS.dir.set 1 (List.replicate entrySize 0)).set j
           (movedEntry (entryAt moveWitnessFS.dir 1)) ∧
       entryAt (move moveWitnessFS nameA nameD).1.dir j =
         movedEntry (entryAt moveWitnessFS.dir 1))) :=
  ⟨by decide, by decide,
    move_erases_source_then_rewrites_destination moveWitnessFS nameA nameD 1
      (by decide) (by decide)⟩

end FurgFS
